import Mathlib

/-!
Verification of the filejump storage-backend adapter (backend/filejump of
the rclone fork).  The Go source is shallowly embedded below: pure helper
functions become Lean functions, the paginated listing loop becomes a
fuel-indexed recursion over an abstract server, and network effects are
made explicit by returning the list of requests an operation issues.
External collaborators that the adapter merely invokes (the directory
cache, the filename encoder, the generic transport retry predicate and
the Unicode case-folding of the standard library) are passed in as
parameters, so every theorem quantifies over their behaviour.
-/

namespace Filejump

/-- Error values of the adapter.  The Go code returns error interface
values; each distinct error construction site of the source gets one
constructor here (the source message is noted in comments). -/
inductive GoErr where
  /-- fs.ErrorObjectNotFound -/
  | objectNotFound
  /-- fs.ErrorDirNotFound -/
  | dirNotFound
  /-- fs.ErrorIsDir -/
  | isDir
  /-- fs.ErrorNotAFile (wrapped, from the dead second check of setMetaData) -/
  | notAFile
  /-- errors.New: can not purge root directory -/
  | cantPurgeRoot
  /-- fmt.Errorf: rmdir failed (wraps a transport error) -/
  | rmdirFailed (e : GoErr)
  /-- errors.New: delete, no api success -/
  | deleteNoSuccess
  /-- errors.New: can not upload unknown sizes objects -/
  | unknownSize
  /-- errors.New: download not possible, no ID present -/
  | noID
  /-- errors.New: redirect URL not found -/
  | noRedirectLocation
  /-- fmt.Errorf: could not list files (wraps a transport error) -/
  | listFailed (e : GoErr)
  /-- an abstract transport-level failure returned by the HTTP layer -/
  | transport (code : Nat)
  deriving DecidableEq, Repr

/-- Item type tags, from api/types.go. -/
def ItemTypeFolder : String := "folder"

/-- Item type tag image, from api/types.go. -/
def ItemTypeImage : String := "image"

/-- Item type tag text, from api/types.go. -/
def ItemTypeText : String := "text"

/-- Item type tag audio, from api/types.go. -/
def ItemTypeAudio : String := "audio"

/-- Item type tag video, from api/types.go. -/
def ItemTypeVideo : String := "video"

/-- Item type tag pdf, from api/types.go. -/
def ItemTypePdf : String := "pdf"

/-- The recognized type tags declared as constants in api/types.go. -/
def recognizedTypes : List String :=
  [ItemTypeFolder, ItemTypeImage, ItemTypeText, ItemTypeAudio, ItemTypeVideo, ItemTypePdf]

/-- One remote entry, from struct Item of api/types.go (second revision,
whose created_at and updated_at fields are JSON strings).  Only the fields
the adapter reads are carried; the remaining fields of the Go struct are
never consulted by the code under verification. -/
structure Item where
  ID : Int
  Name : String
  /-- the Go field is named Type, a reserved word in Lean -/
  type : String
  FileSize : Int
  CreatedAt : String
  UpdatedAt : String
  deriving DecidableEq, Repr

/-- One page of the paginated listing response, from struct FileEntries of
api/types.go.  NextPage is nil-able in Go, hence an Option. -/
structure FileEntriesPage where
  data : List Item
  nextPage : Option Nat
  deriving DecidableEq, Repr

/-! ## String helpers (embeddings of the Go standard-library calls used) -/

/-- Helper for strContains: does the first list occur at the head of the
second one. -/
def startsWithList : List Char → List Char → Bool
  | [], _ => true
  | _ :: _, [] => false
  | a :: as, b :: bs => a == b && startsWithList as bs

/-- Helper for strContains: does the pattern occur anywhere in the list. -/
def containsList (pat : List Char) : List Char → Bool
  | [] => startsWithList pat []
  | c :: cs => startsWithList pat (c :: cs) || containsList pat cs

/-- Embedding of strings.Contains(s, pat) from the Go standard library:
true when pat occurs as a contiguous substring of s. -/
def strContains (s pat : String) : Bool :=
  containsList pat.data s.data

/-- Digits of n, least significant first, with explicit fuel so the
definition is structural and evaluates by decide.  Called with fuel = n. -/
def digitsRev (fuel n : Nat) : List Nat :=
  match fuel with
  | 0 => []
  | fuel + 1 => if n = 0 then [] else (n % 10) :: digitsRev fuel (n / 10)

/-- Decimal rendering of a natural number, as strconv does it. -/
def natStr (n : Nat) : String :=
  if n = 0 then "0" else ⟨((digitsRev n n).reverse.map Nat.digitChar)⟩

/-- Embedding of strconv.Itoa from the Go standard library (for the int
values the adapter serializes). -/
def itoa (i : Int) : String :=
  if i < 0 then "-" ++ natStr i.natAbs else natStr i.toNat

/-! ## Timestamp decoding (api/types.go, Item.ModTime, second revision)

The Go code calls time.Parse with seven fixed layout strings.  The layout
language of the Go time package is embedded below as chunk lists; each of
the seven layout strings of the source is translated chunk by chunk.  The
parser replicates the behaviour of time.Parse on these layouts: two-digit
fields, fixed-width and optional fractional seconds, the ISO 8601 colon
zone, the rule that a fractional second directly after the seconds is
accepted even when the layout does not contain one, the calendar range
checks, and the default UTC location when the layout carries no zone. -/

/-- One chunk of a Go time layout string. -/
inductive LChunk where
  /-- layout 2006: four-digit year -/
  | year4
  /-- layout 01: two-digit month -/
  | month2
  /-- layout 02: two-digit day -/
  | day2
  /-- layout 15: two-digit hour -/
  | hour2
  /-- layout 04: two-digit minute -/
  | minute2
  /-- layout 05: two-digit second -/
  | second2
  /-- a literal character of the layout -/
  | lit (c : Char)
  /-- layout .000...: a dot and exactly n fractional digits -/
  | fracFixed (n : Nat)
  /-- layout .999999999: an optional fraction of one to nine digits -/
  | fracOpt
  /-- layout Z07:00: the letter Z or a signed hh:mm offset -/
  | zoneColon
  deriving DecidableEq, Repr

/-- Values parsed so far; Go starts from January 1, year 0, 00:00:00 UTC. -/
structure PStat where
  year : Nat := 0
  month : Nat := 1
  day : Nat := 1
  hour : Nat := 0
  minute : Nat := 0
  second : Nat := 0
  nanos : Nat := 0
  offset : Int := 0
  deriving DecidableEq, Repr

/-- Numeric value of a decimal digit character. -/
def readDigit (c : Char) : Option Nat :=
  if '0' ≤ c ∧ c ≤ '9' then some (c.toNat - 48) else none

/-- Read exactly two decimal digits. -/
def read2 : List Char → Option (Nat × List Char)
  | a :: b :: rest =>
    match readDigit a, readDigit b with
    | some x, some y => some (x * 10 + y, rest)
    | _, _ => none
  | _ => none

/-- Read exactly four decimal digits. -/
def read4 : List Char → Option (Nat × List Char)
  | a :: b :: c :: d :: rest =>
    match readDigit a, readDigit b, readDigit c, readDigit d with
    | some w, some x, some y, some z => some (((w * 10 + x) * 10 + y) * 10 + z, rest)
    | _, _, _, _ => none
  | _ => none

/-- Read a maximal run of decimal digits. -/
def takeDigits : List Char → List Nat × List Char
  | [] => ([], [])
  | c :: cs =>
    match readDigit c with
    | some d => let (ds, rest) := takeDigits cs; (d :: ds, rest)
    | none => ([], c :: cs)

/-- Read exactly n decimal digits. -/
def readN : Nat → List Char → Option (List Nat × List Char)
  | 0, s => some ([], s)
  | _ + 1, [] => none
  | k + 1, c :: cs =>
    match readDigit c with
    | some d =>
      match readN k cs with
      | some (ds, r) => some (d :: ds, r)
      | none => none
    | none => none

/-- Nanoseconds denoted by a fraction digit list; more than nine digits is
out of range, as in time.Parse. -/
def nanosOfDigits (ds : List Nat) : Option Nat :=
  if ds.length = 0 ∨ 9 < ds.length then none
  else some ((ds.foldl (fun a d => a * 10 + d) 0) * 10 ^ (9 - ds.length))

/-- Parse an optional fractional second: absent when the input does not
continue with a dot followed by a digit. -/
def parseFracOpt (s : List Char) : Option (Nat × List Char) :=
  match s with
  | '.' :: rest =>
    match takeDigits rest with
    | ([], _) => some (0, s)
    | (ds, r) =>
      match nanosOfDigits ds with
      | some n => some (n, r)
      | none => none
  | _ => some (0, s)

/-- Parse a dot followed by exactly n fraction digits. -/
def parseFracFixed (n : Nat) (s : List Char) : Option (Nat × List Char) :=
  match s with
  | '.' :: rest =>
    match readN n rest with
    | some (ds, r) =>
      match nanosOfDigits ds with
      | some v => some (v, r)
      | none => none
    | none => none
  | _ => none

/-- Parse the Z07:00 zone element: Z, or a sign and hh:mm.  Returns the
offset in seconds east of UTC. -/
def parseZone (s : List Char) : Option (Int × List Char) :=
  match s with
  | 'Z' :: rest => some (0, rest)
  | c :: rest =>
    if c = '+' ∨ c = '-' then
      match read2 rest with
      | some (hh, r1) =>
        match r1 with
        | ':' :: r2 =>
          match read2 r2 with
          | some (mm, r3) =>
            if hh ≤ 23 ∧ mm ≤ 59 then
              some ((if c = '-' then (-1 : Int) else 1) * (hh * 3600 + mm * 60), r3)
            else none
          | none => none
        | _ => none
      | none => none
    else none
  | [] => none

/-- Run a layout over the input; the whole input must be consumed, as
time.Parse rejects trailing text. -/
def runChunks : List LChunk → List Char → PStat → Option PStat
  | [], [], st => some st
  | [], _ :: _, _ => none
  | ch :: rest, s, st =>
    match ch with
    | LChunk.year4 =>
      match read4 s with
      | some (y, r) => runChunks rest r { st with year := y }
      | none => none
    | LChunk.month2 =>
      match read2 s with
      | some (v, r) => runChunks rest r { st with month := v }
      | none => none
    | LChunk.day2 =>
      match read2 s with
      | some (v, r) => runChunks rest r { st with day := v }
      | none => none
    | LChunk.hour2 =>
      match read2 s with
      | some (v, r) => runChunks rest r { st with hour := v }
      | none => none
    | LChunk.minute2 =>
      match read2 s with
      | some (v, r) => runChunks rest r { st with minute := v }
      | none => none
    | LChunk.second2 =>
      match read2 s with
      | some (v, r) =>
        match rest with
        | LChunk.fracFixed _ :: _ => runChunks rest r { st with second := v }
        | LChunk.fracOpt :: _ => runChunks rest r { st with second := v }
        | _ =>
          match parseFracOpt r with
          | some (ns, r2) => runChunks rest r2 { st with second := v, nanos := ns }
          | none => none
      | none => none
    | LChunk.lit c =>
      match s with
      | c' :: r => if c' = c then runChunks rest r st else none
      | [] => none
    | LChunk.fracFixed n =>
      match parseFracFixed n s with
      | some (ns, r) => runChunks rest r { st with nanos := ns }
      | none => none
    | LChunk.fracOpt =>
      match parseFracOpt s with
      | some (ns, r) => runChunks rest r { st with nanos := ns }
      | none => none
    | LChunk.zoneColon =>
      match parseZone s with
      | some (off, r) => runChunks rest r { st with offset := off }
      | none => none

/-- Leap year rule of the proleptic Gregorian calendar. -/
def isLeap (y : Nat) : Bool :=
  (y % 4 = 0 ∧ y % 100 ≠ 0) ∨ y % 400 = 0

/-- Number of days of a month, as the range check of time.Parse uses. -/
def daysIn (m y : Nat) : Nat :=
  match m with
  | 2 => if isLeap y then 29 else 28
  | 4 => 30
  | 6 => 30
  | 9 => 30
  | 11 => 30
  | _ => 31

/-- The range checks time.Parse performs on the parsed fields. -/
def validStat (st : PStat) : Bool :=
  1 ≤ st.month ∧ st.month ≤ 12 ∧ 1 ≤ st.day ∧ st.day ≤ daysIn st.month st.year ∧
    st.hour ≤ 23 ∧ st.minute ≤ 59 ∧ st.second ≤ 59

/-- Days since the Unix epoch of a civil date (standard civil-calendar
conversion, floor divisions throughout). -/
def daysFromCivil (y : Int) (m d : Nat) : Int :=
  let y' : Int := if m ≤ 2 then y - 1 else y
  let era : Int := Int.fdiv y' 400
  let yoe : Int := y' - era * 400
  let mp : Int := if m ≤ 2 then (m : Int) + 9 else (m : Int) - 3
  let doy : Int := Int.fdiv (153 * mp + 2) 5 + (d : Int) - 1
  let doe : Int := yoe * 365 + Int.fdiv yoe 4 - Int.fdiv yoe 100 + doy
  era * 146097 + doe - 719468

/-- A Go time.Time value, reduced to what the adapter observes: the
instant (Unix seconds and nanoseconds) and whether the location is the
local one.  Converting a time to the local location keeps the instant. -/
structure GoTime where
  sec : Int
  nsec : Nat
  isLocal : Bool
  deriving DecidableEq, Repr

/-- The zero time.Time value: January 1 of year 1, 00:00:00 UTC. -/
def GoTime.zero : GoTime :=
  ⟨daysFromCivil 1 1 1 * 86400, 0, false⟩

/-- Embedding of the Local conversion: same instant, local location. -/
def GoTime.toLocal (t : GoTime) : GoTime :=
  { t with isLocal := true }

/-- Instant denoted by a fully parsed field record. -/
def statTime (st : PStat) : GoTime :=
  ⟨daysFromCivil st.year st.month st.day * 86400 +
      st.hour * 3600 + st.minute * 60 + st.second - st.offset,
    st.nanos, false⟩

/-- Embedding of time.Parse for one of the layouts used by the code. -/
def goParse (layout : List LChunk) (value : String) : Option GoTime :=
  match runChunks layout value.data {} with
  | some st => if validStat st then some (statTime st) else none
  | none => none

/-- The chunk translation of the common layout part 2006-01-02T15:04:05. -/
def dtChunks : List LChunk :=
  [LChunk.year4, LChunk.lit '-', LChunk.month2, LChunk.lit '-', LChunk.day2,
    LChunk.lit 'T', LChunk.hour2, LChunk.lit ':', LChunk.minute2, LChunk.lit ':',
    LChunk.second2]

/-- The seven layout strings of the formats slice of Item.ModTime, in
source order: the six-digit FileJump layout, RFC3339, RFC3339Nano, the
literal-Z layout, the space-separated layout, the millisecond layout and
the bare layout. -/
def itemTimeFormats : List (List LChunk) :=
  [dtChunks ++ [LChunk.fracFixed 6, LChunk.lit 'Z'],
    dtChunks ++ [LChunk.zoneColon],
    dtChunks ++ [LChunk.fracOpt, LChunk.zoneColon],
    dtChunks ++ [LChunk.lit 'Z'],
    [LChunk.year4, LChunk.lit '-', LChunk.month2, LChunk.lit '-', LChunk.day2,
      LChunk.lit ' ', LChunk.hour2, LChunk.lit ':', LChunk.minute2, LChunk.lit ':',
      LChunk.second2],
    dtChunks ++ [LChunk.fracFixed 3, LChunk.lit 'Z'],
    dtChunks]

/-- The inner loop of Item.ModTime: try the layouts in order, return the
first successful parse. -/
def firstParse (s : String) : Option GoTime :=
  itemTimeFormats.findSome? (fun fmt => goParse fmt s)

/-- Embedding of Item.ModTime of api/types.go (second revision): parse
UpdatedAt under the layout list, fall back to CreatedAt, fall back to the
zero time; successful parses are converted to the local location. -/
def Item.ModTime (i : Item) : GoTime :=
  match (if i.UpdatedAt = "" then none else firstParse i.UpdatedAt) with
  | some t => t.toLocal
  | none =>
    match (if i.CreatedAt = "" then none else firstParse i.CreatedAt) with
    | some t => t.toLocal
    | none => GoTime.zero

/-! ## Identifier rendering (api/types.go, Item.GetID, both revisions) -/

/-- Embedding of Item.GetID, first revision of api/types.go: the plain
decimal rendering of the integer identifier. -/
def Item.GetID (i : Item) : String :=
  itoa i.ID

/-- Embedding of Item.GetID, second revision of api/types.go: the empty
string for the invalid identifier 0, the decimal rendering otherwise. -/
def Item.GetIDv2 (i : Item) : String :=
  if i.ID = 0 then "" else itoa i.ID

/-! ## Retry classification (filejump.go, shouldRetry and retryErrorCodes) -/

/-- The HTTP response data shouldRetry consults: the status code and the
Www-Authenticate header (empty string when the header is absent, as
returned by Header.Get). -/
structure HResponse where
  statusCode : Nat
  wwwAuthenticate : String
  deriving DecidableEq, Repr

/-- The slice retryErrorCodes of filejump.go. -/
def retryErrorCodes : List Nat :=
  [429, 500, 502, 503, 504, 509]

/-- Modelled from the spec: the helper fserrors.ShouldRetryHTTP of the
host tool is not under src/; per the spec retry table it reports true
exactly when a response is present and its status is one of the given
codes. -/
def ShouldRetryHTTP (resp : Option HResponse) (codes : List Nat) : Bool :=
  match resp with
  | none => false
  | some r => codes.contains r.statusCode

/-- Embedding of shouldRetry of filejump.go.  The context layer and the
generic transport predicate are abstracted: ctxErr is the result of
fserrors.ContextError (true when the context is cancelled or expired) and
genericRetry is the result of fserrors.ShouldRetry on the error value. -/
def shouldRetry (ctxErr : Bool) (resp : Option HResponse) (genericRetry : Bool) : Bool :=
  if ctxErr then false
  else
    let authRetry :=
      match resp with
      | some r => r.statusCode == 401 && strContains r.wwwAuthenticate ("expired_token")
      | none => false
    authRetry || genericRetry || ShouldRetryHTTP resp retryErrorCodes

/-! ## Paginated listing (filejump.go, Fs.listAll)

The server is abstracted as a function from a listing request (the
folderId parameter and the optional page parameter) to a transport result.
The loop of listAll is a fuel-indexed recursion; the trace records, in
order, every request issued and every item fed to the callback. -/

/-- A listing request: the folderId value and the page parameter, which
is absent on the first request of the loop. -/
structure ListReq where
  folderId : String
  page : Option Nat
  deriving DecidableEq, Repr

/-- An abstract listing server: what the GET drive/file-entries endpoint
answers for a given request. -/
def ListSrv :=
  String → Option Nat → Except GoErr FileEntriesPage

/-- The filter of the loop body of listAll, mirroring the source shape:
folders are skipped when filesOnly is set, non-folders are skipped when
directoriesOnly is set, and the final branch of the source, which would
skip and log an entry of unknown type, is unreachable because every item
either has the folder type or has not. -/
def listAllKeep (directoriesOnly filesOnly : Bool) (i : Item) : Bool :=
  if i.type = ItemTypeFolder then
    !filesOnly
  else if i.type ≠ ItemTypeFolder then
    !directoriesOnly
  else
    false

/-- The name decoding applied to every kept item, modelling the
assignment of ToStandardName of the configured encoder to item.Name. -/
def encItem (enc : String → String) (i : Item) : Item :=
  { i with Name := enc i.Name }

/-- The inner loop of listAll over the data slice of one page: skipped
items are dropped, kept items are renamed and fed to the callback, and
the loop stops after the first item on which the callback answers true.
Returns the fed items in order and the found flag. -/
def processPage (directoriesOnly filesOnly : Bool) (enc : String → String)
    (fn : Item → Bool) : List Item → List Item × Bool
  | [] => ([], false)
  | i :: rest =>
    if listAllKeep directoriesOnly filesOnly i then
      let i' := encItem enc i
      if fn i' then ([i'], true)
      else
        let (v, b) := processPage directoriesOnly filesOnly enc fn rest
        (i' :: v, b)
    else processPage directoriesOnly filesOnly enc fn rest

/-- Outcome of a run of listAll: the found flag on normal return, a
wrapped transport error, or fuel exhaustion standing for a run of the Go
loop that has not terminated within the given number of requests. -/
inductive ListOutcome where
  | ok (found : Bool)
  | err (e : GoErr)
  | fuelOut
  deriving DecidableEq, Repr

/-- Trace of a run of listAll. -/
structure ListTrace where
  reqs : List ListReq
  visited : List Item
  outcome : ListOutcome
  deriving DecidableEq, Repr

/-- The page loop of listAll, from the current page parameter. -/
def listAllFrom (srv : ListSrv) (dirID : String) (directoriesOnly filesOnly : Bool)
    (enc : String → String) (fn : Item → Bool) :
    Nat → Option Nat → ListTrace
  | 0, _ => ⟨[], [], ListOutcome.fuelOut⟩
  | fuel + 1, page =>
    match srv dirID page with
    | Except.error e => ⟨[⟨dirID, page⟩], [], ListOutcome.err (GoErr.listFailed e)⟩
    | Except.ok result =>
      let (vis, hit) := processPage directoriesOnly filesOnly enc fn result.data
      if hit then ⟨[⟨dirID, page⟩], vis, ListOutcome.ok true⟩
      else
        match result.nextPage with
        | none => ⟨[⟨dirID, page⟩], vis, ListOutcome.ok false⟩
        | some n =>
          let t := listAllFrom srv dirID directoriesOnly filesOnly enc fn fuel (some n)
          ⟨⟨dirID, page⟩ :: t.reqs, vis ++ t.visited, t.outcome⟩

/-- Embedding of Fs.listAll of filejump.go: the loop starts with no page
parameter and follows the next page field of every response. -/
def listAll (srv : ListSrv) (dirID : String) (directoriesOnly filesOnly : Bool)
    (enc : String → String) (fn : Item → Bool) (fuel : Nat) : ListTrace :=
  listAllFrom srv dirID directoriesOnly filesOnly enc fn fuel none

/-- The pagination sequence the server presents for a directory: the
request req is answered by the first page, every page carrying a next
page token leads to the next one, and the last page carries no token. -/
inductive Serves (srv : ListSrv) (dirID : String) :
    Option Nat → List FileEntriesPage → Prop
  | last {req p} : srv dirID req = Except.ok p → p.nextPage = none →
      Serves srv dirID req [p]
  | step {req p n ps} : srv dirID req = Except.ok p → p.nextPage = some n →
      Serves srv dirID (some n) ps → Serves srv dirID req (p :: ps)

/-- The request sequence determined by a pagination chain: one request per
page, each page after the first requested at the page number its
predecessor announced. -/
def chainReqs (dirID : String) : Option Nat → List FileEntriesPage → List ListReq
  | _, [] => []
  | req, p :: ps =>
    ⟨dirID, req⟩ ::
      (match p.nextPage with
      | none => []
      | some n => chainReqs dirID (some n) ps)

/-! ## Operations built on the listing (filejump.go) -/

/-- Embedding of Object.setMetaData of filejump.go.  The second check of
the source, which would wrap fs.ErrorNotAFile, repeats the first condition
verbatim and is therefore unreachable; it is mirrored here. -/
structure ObjMeta where
  hasMetaData : Bool
  size : Int
  modTime : GoTime
  id : String
  deriving DecidableEq, Repr

/-- Result of setMetaData on an item. -/
def setMetaData (i : Item) : Except GoErr ObjMeta :=
  if i.type = ItemTypeFolder then Except.error GoErr.isDir
  else if i.type = ItemTypeFolder then Except.error GoErr.notAFile
  else Except.ok ⟨true, i.FileSize, Item.ModTime i, Item.GetID i⟩

/-- Embedding of Fs.readMetaDataForPath of filejump.go.  The path
resolution by the directory cache is abstracted as its result: the leaf
name and the parent directory identifier, or an error.  A dir-not-found
resolution error is mapped to object-not-found as in the source.  The
listing runs with directoriesOnly false and filesOnly true; the callback
matches the leaf by exact name equality.  The outer Option is none when
the listing ran out of fuel. -/
def readMetaDataForPath (srv : ListSrv) (enc : String → String)
    (resolve : Except GoErr (String × String)) (fuel : Nat) :
    Option (Except GoErr Item) :=
  match resolve with
  | Except.error GoErr.dirNotFound => some (Except.error GoErr.objectNotFound)
  | Except.error e => some (Except.error e)
  | Except.ok (leaf, directoryID) =>
    let t := listAll srv directoryID false true enc (fun item => item.Name == leaf) fuel
    match t.outcome with
    | ListOutcome.fuelOut => none
    | ListOutcome.err e => some (Except.error e)
    | ListOutcome.ok true =>
      match t.visited.find? (fun item => item.Name == leaf) with
      | some item => some (Except.ok item)
      | none => some (Except.error GoErr.objectNotFound)
    | ListOutcome.ok false => some (Except.error GoErr.objectNotFound)

/-- Embedding of Fs.FindLeaf of filejump.go.  The listing runs with
directoriesOnly true and filesOnly false; the callback matches the leaf
with strings.EqualFold, which is abstracted as the parameter ef (a
case-insensitive equality under Unicode simple case folding).  On a hit
the returned identifier is the GetID of the hit item, which is the first
fed item the callback accepted. -/
def FindLeaf (srv : ListSrv) (ef : String → String → Bool) (enc : String → String)
    (pathID leaf : String) (fuel : Nat) :
    Option (Except GoErr (String × Bool)) :=
  let t := listAll srv pathID true false enc (fun item => ef item.Name leaf) fuel
  match t.outcome with
  | ListOutcome.fuelOut => none
  | ListOutcome.err e => some (Except.error e)
  | ListOutcome.ok found =>
    let pathIDOut :=
      match t.visited.find? (fun item => ef item.Name leaf) with
      | some item => Item.GetID item
      | none => ""
    some (Except.ok (pathIDOut, found))

/-- ASCII instance of the case-insensitive equality strings.EqualFold:
ASCII letters compare up to case.  The Go function additionally folds
non-ASCII letters by Unicode simple folding; the theorems take the fold
as a parameter, and this instance is used for concrete inputs. -/
def foldCharAscii (c : Char) : Char :=
  if 'A' ≤ c ∧ c ≤ 'Z' then Char.ofNat (c.toNat + 32) else c

/-- ASCII case-insensitive string equality. -/
def eqFoldAscii (s t : String) : Bool :=
  s.data.map foldCharAscii == t.data.map foldCharAscii

/-- Two strings that differ only in ASCII letter case. -/
def asciiCaseVariant (s t : String) : Bool :=
  s.data.length == t.data.length &&
    (s.data.zip t.data).all (fun p =>
      p.1 == p.2 || (foldCharAscii p.1 == foldCharAscii p.2 &&
        (('A' ≤ p.1 ∧ p.1 ≤ 'Z') ∨ ('a' ≤ p.1 ∧ p.1 ≤ 'z'))))

/-! ## Directory removal (filejump.go, Fs.purgeCheck) -/

/-- Delete endpoint response body. -/
structure DeleteResult where
  status : String
  deriving DecidableEq, Repr

/-- Model of path.Join restricted to what purgeCheck consults: the join
of the filesystem root and the directory is empty exactly when both are
empty. -/
def pathJoin (a b : String) : String :=
  if a = "" then b else if b = "" then a else a ++ "/" ++ b

/-- Digits accumulator for atoi. -/
def parseDigitsAcc (acc : Nat) : List Char → Option Nat
  | [] => some acc
  | c :: cs =>
    match readDigit c with
    | some d => parseDigitsAcc (acc * 10 + d) cs
    | none => none

/-- Embedding of strconv.Atoi with the error discarded, as the source
does: a malformed string yields 0. -/
def atoi (s : String) : Int :=
  match s.data with
  | [] => 0
  | '-' :: rest =>
    match parseDigitsAcc 0 rest with
    | some n => -(n : Int)
    | none => 0
  | '+' :: rest =>
    match parseDigitsAcc 0 rest with
    | some n => (n : Int)
    | none => 0
  | l =>
    match parseDigitsAcc 0 l with
    | some n => (n : Int)
    | none => 0

/-- Embedding of Fs.purgeCheck of filejump.go.  The directory resolution
(dirCache.FindDir) is abstracted as its result, the delete endpoint as a
function of the entry identifier.  The Boolean of the result records
whether dirCache.FlushDir ran: in the source the flush sits after the
transport check and after the status check, so it runs exactly on full
success; the error check after the flush repeats an error already
returned and is unreachable. -/
def purgeCheck (fRoot dir : String)
    (resolve : Except GoErr String)
    (delete : Int → Except GoErr DeleteResult) : Except GoErr Unit × Bool :=
  if pathJoin fRoot dir = "" then (Except.error GoErr.cantPurgeRoot, false)
  else
    match resolve with
    | Except.error e => (Except.error e, false)
    | Except.ok rootID =>
      match delete (atoi rootID) with
      | Except.error e => (Except.error (GoErr.rmdirFailed e), false)
      | Except.ok result =>
        if result.status ≠ "success" then (Except.error GoErr.deleteNoSuccess, false)
        else (Except.ok (), true)

/-! ## Download (filejump.go, Object.Open) -/

/-- A download request: the target (path of the primary request, URL of a
redirect follow-up) and whether the request goes through the adapter
client that attaches the bearer token.  The redirect follow-up uses the
plain default client, so it carries no token. -/
structure DlReq where
  target : String
  withAuth : Bool
  deriving DecidableEq, Repr

/-- A download response: status, the Location header value (empty when
absent) and the body. -/
structure DlResponse where
  status : Nat
  location : String
  body : String
  deriving DecidableEq, Repr

/-- Embedding of Object.Open of filejump.go, one pass of the pacer body:
an empty identifier is rejected before any request; otherwise the
authenticated primary request is issued; a 302 response with a Location
header is followed by exactly one non-authenticated request whose body is
returned; a 302 response without one is an error; every other status
returns the primary body. -/
def openDownload (id : String)
    (primary : Except GoErr DlResponse)
    (follow : String → Except GoErr DlResponse) : List DlReq × Except GoErr String :=
  if id = "" then ([], Except.error GoErr.noID)
  else
    let req : DlReq := ⟨"/file-entries/download/" ++ id, true⟩
    match primary with
    | Except.error e => ([req], Except.error e)
    | Except.ok resp =>
      if resp.status = 302 then
        if resp.location = "" then ([req], Except.error GoErr.noRedirectLocation)
        else
          match follow resp.location with
          | Except.error e => ([req, ⟨resp.location, false⟩], Except.error e)
          | Except.ok r2 => ([req, ⟨resp.location, false⟩], Except.ok r2.body)
      else ([req], Except.ok resp.body)

/-! ## Upload entry (filejump.go, Object.Update) -/

/-- Result of Object.Update together with the number of network calls the
operation issued.  The directory resolution (dirCache.FindPath, which may
issue listing calls) and the upload itself are abstracted as parameters
each carrying its own result and call count. -/
def update (size : Int)
    (findPath : Except GoErr (String × String) × Nat)
    (doUpload : Except GoErr Unit × Nat) : Except GoErr Unit × Nat :=
  if size < 0 then (Except.error GoErr.unknownSize, 0)
  else
    match findPath with
    | (Except.error e, n) => (Except.error e, n)
    | (Except.ok _, n) =>
        let (r, m) := doUpload
        (r, n + m)

/-! ## Concrete instances used by individual claims -/

/-- A text file entry on the first page of the C1 scenario. -/
def itemA : Item := ⟨1, "alpha", ItemTypeText, 10, "", ""⟩

/-- A folder entry on the first page of the C1 scenario. -/
def itemB : Item := ⟨2, "beta", ItemTypeFolder, 0, "", ""⟩

/-- A pdf entry on the second page of the C1 scenario. -/
def itemC : Item := ⟨3, "gamma", ItemTypePdf, 5, "", ""⟩

/-- First page of the C1 scenario, pointing at page 2. -/
def pageC1a : FileEntriesPage := ⟨[itemA, itemB], some 2⟩

/-- Second page of the C1 scenario, final. -/
def pageC1b : FileEntriesPage := ⟨[itemC], none⟩

/-- A two-page listing server for the C1 scenario. -/
def srvC1 : ListSrv := fun _ page =>
  match page with
  | none => Except.ok pageC1a
  | some 2 => Except.ok pageC1b
  | some _ => Except.error (GoErr.transport 500)

/-- An entry whose type tag is none of the recognized constants. -/
def itemC3 : Item := ⟨7, "mystery", "banana", 3, "", ""⟩

/-- A one-page server presenting only the unrecognized entry. -/
def srvC3 : ListSrv := fun _ _ => Except.ok ⟨[itemC3], none⟩

/-- A folder child named sub, for the C6 scenario. -/
def itemC6 : Item := ⟨9, "sub", ItemTypeFolder, 0, "", ""⟩

/-- The single listing page of the C6 scenario. -/
def pageC6 : FileEntriesPage := ⟨[itemC6], none⟩

/-- A one-page server presenting only the folder child. -/
def srvC6 : ListSrv := fun _ _ => Except.ok pageC6

/-- A plain file entry with a valid identifier, for the C8 witness. -/
def itemC8 : Item := ⟨7, "file.txt", ItemTypeText, 3, "", ""⟩

/-- The item whose updated field carries the FileJump timestamp. -/
def itemC4 : Item := ⟨0, "", "", 0, "", "2023-01-15T10:30:00.000000Z"⟩

/-- The item with empty created and updated fields. -/
def itemC4e : Item := ⟨0, "", "", 0, "", ""⟩

/-- A 301 redirect answer for the C9 scenario. -/
def respC9 : DlResponse := ⟨301, "http://target", "origbody"⟩

/-- The follow-up fetch of the C9 scenario. -/
def followC9 : String → Except GoErr DlResponse := fun _ => Except.ok ⟨200, "", "redirbody"⟩

/-- A folder child named Test, for the C10 scenario. -/
def itemC10 : Item := ⟨7, "Test", ItemTypeFolder, 0, "", ""⟩

/-- A one-page server presenting only the folder Test. -/
def srvC10 : ListSrv := fun _ _ => Except.ok ⟨[itemC10], none⟩

/-- A file child named Test, for the exact-match contrast of C10. -/
def fileC10 : Item := ⟨8, "Test", ItemTypeText, 3, "", ""⟩

/-- A one-page server presenting only the file Test. -/
def srvC10f : ListSrv := fun _ _ => Except.ok ⟨[fileC10], none⟩

/-! ## Helper lemmas -/

/-- With both flags clear the filter of listAll keeps every item. -/
theorem listAllKeep_false_false (i : Item) : listAllKeep false false i = true := by
  by_cases h : i.type = ItemTypeFolder <;> simp [listAllKeep, h]

/-- With filesOnly set the filter keeps exactly the non-folders. -/
theorem listAllKeep_false_true (i : Item) :
    listAllKeep false true i = true ↔ i.type ≠ ItemTypeFolder := by
  by_cases h : i.type = ItemTypeFolder <;> simp [listAllKeep, h]

/-- With directoriesOnly set the filter keeps exactly the folders. -/
theorem listAllKeep_true_false (i : Item) :
    listAllKeep true false i = true ↔ i.type = ItemTypeFolder := by
  by_cases h : i.type = ItemTypeFolder <;> simp [listAllKeep, h]

/-- When the callback accepts no kept item of a page, the page loop feeds
every kept item, renamed, and reports no hit. -/
theorem processPage_noHit (d f : Bool) (enc : String → String) (fn : Item → Bool)
    (l : List Item) (h : ∀ i ∈ l, listAllKeep d f i = true → fn (encItem enc i) = false) :
    processPage d f enc fn l = ((l.filter (listAllKeep d f)).map (encItem enc), false) := by
  induction l with
  | nil => rfl
  | cons i rest ih =>
    have hrest := ih (fun j hj hk => h j (List.mem_cons_of_mem _ hj) hk)
    by_cases hk : listAllKeep d f i = true
    · have hfn := h i (List.mem_cons_self i rest) hk
      simp [processPage, hk, hfn, hrest, List.filter_cons]
    · simp [processPage, Bool.of_not_eq_true hk, hrest, List.filter_cons]

/-- When the first kept-and-accepted item of a page is x, the page loop
reports a hit and the first accepted element of the fed list is the
renamed x. -/
theorem processPage_found (d f : Bool) (enc : String → String) (fn : Item → Bool)
    (l : List Item) (x : Item)
    (h : l.find? (fun i => listAllKeep d f i && fn (encItem enc i)) = some x) :
    (processPage d f enc fn l).2 = true ∧
      (processPage d f enc fn l).1.find? fn = some (encItem enc x) := by
  induction l with
  | nil => simp [List.find?] at h
  | cons i rest ih =>
    by_cases hk : listAllKeep d f i = true
    · by_cases hfn : fn (encItem enc i) = true
      · have hx : x = i := by
          simp [List.find?, hk, hfn] at h
          exact h.symm
        subst hx
        simp [processPage, hk, hfn, List.find?]
      · have h' : rest.find? (fun i => listAllKeep d f i && fn (encItem enc i)) = some x := by
          simpa [List.find?, hk, hfn] using h
        have := ih h'
        rcases hp : processPage d f enc fn rest with ⟨v, b⟩
        rw [hp] at this
        simp [processPage, hk, hfn, hp, List.find?, this.1, this.2]
    · have h' : rest.find? (fun i => listAllKeep d f i && fn (encItem enc i)) = some x := by
        simpa [List.find?, Bool.of_not_eq_true hk] using h
      have := ih h'
      simpa [processPage, Bool.of_not_eq_true hk] using this

/-- Over a pagination chain on which the callback accepts no kept item,
listAll issues exactly the chain requests, feeds exactly the kept items
of every page (renamed) in order, and returns found cleared. -/
theorem listAllFrom_chain (srv : ListSrv) (dirID : String) (d f : Bool)
    (enc : String → String) (fn : Item → Bool) {req : Option Nat}
    {ps : List FileEntriesPage} (hserves : Serves srv dirID req ps) :
    (∀ p ∈ ps, ∀ i ∈ p.data, listAllKeep d f i = true → fn (encItem enc i) = false) →
    ∀ fuel, ps.length ≤ fuel →
    listAllFrom srv dirID d f enc fn fuel req =
      ⟨chainReqs dirID req ps,
        (ps.map (fun p => (p.data.filter (listAllKeep d f)).map (encItem enc))).flatten,
        ListOutcome.ok false⟩ := by
  induction hserves with
  | @last req p hsrv hnext =>
    intro hno fuel hfuel
    cases fuel with
    | zero => simp at hfuel
    | succ g =>
      have hp := processPage_noHit d f enc fn p.data (hno p (by simp))
      simp [listAllFrom, hsrv, hp, hnext, chainReqs]
  | @step req p n ps' hsrv hnext hs ih =>
    intro hno fuel hfuel
    cases fuel with
    | zero => simp at hfuel
    | succ g =>
      have hp := processPage_noHit d f enc fn p.data (hno p (by simp))
      have hg : ps'.length ≤ g := by
        simpa using hfuel
      have ihg := ih (fun q hq => hno q (List.mem_cons_of_mem _ hq)) g hg
      simp [listAllFrom, hsrv, hp, hnext, chainReqs, ihg]

/-- A pagination chain gets one request per page. -/
theorem chainReqs_length (srv : ListSrv) (dirID : String) {req : Option Nat}
    {ps : List FileEntriesPage} (h : Serves srv dirID req ps) :
    (chainReqs dirID req ps).length = ps.length := by
  induction h with
  | @last req p hsrv hnext => simp [chainReqs, hnext]
  | @step req p n ps' hsrv hnext hs ih => simp [chainReqs, hnext, ih]

/-- First-match characterization of findSome? over a list: it answers
some b exactly when some element maps to some b and every element before
it maps to none. -/
theorem findSome?_first {α β : Type} (f : α → Option β) :
    ∀ (l : List α) (b : β),
      l.findSome? f = some b ↔
        ∃ l₁ a l₂, l = l₁ ++ a :: l₂ ∧ f a = some b ∧ ∀ x ∈ l₁, f x = none := by
  intro l b
  induction l with
  | nil => simp [List.findSome?]
  | cons c rest ih =>
    cases hc : f c with
    | some b' =>
      simp only [List.findSome?_cons, hc]
      constructor
      · intro hb
        exact ⟨[], c, rest, by simp, by rw [hc]; exact hb, by simp⟩
      · rintro ⟨l₁, a, l₂, heq, hfa, hnone⟩
        cases l₁ with
        | nil =>
          simp at heq
          rw [← heq.1] at hfa
          rw [hc] at hfa
          exact hfa
        | cons dd l₁' =>
          have hd : dd = c := by
            simpa using congrArg (fun t => t.head?) heq.symm
          have : f dd = none := hnone dd (by simp)
          rw [hd, hc] at this
          exact absurd this (by simp)
    | none =>
      simp only [List.findSome?_cons, hc]
      rw [ih]
      constructor
      · rintro ⟨l₁, a, l₂, heq, hfa, hnone⟩
        refine ⟨c :: l₁, a, l₂, by simp [heq], hfa, ?_⟩
        intro x hx
        rcases List.mem_cons.mp hx with hx | hx
        · rw [hx]; exact hc
        · exact hnone x hx
      · rintro ⟨l₁, a, l₂, heq, hfa, hnone⟩
        cases l₁ with
        | nil =>
          simp at heq
          rw [← heq.1] at hfa
          rw [hc] at hfa
          exact absurd hfa (by simp)
        | cons dd l₁' =>
          have heq' : rest = l₁' ++ a :: l₂ := by
            simpa using congrArg (fun t => t.tail) heq
          exact ⟨l₁', a, l₂, heq', hfa, fun x hx => hnone x (List.mem_cons_of_mem _ hx)⟩

/-! ## Claims -/

/-- C2: shouldRetry classifies a failure as retryable exactly when the
generic transport predicate fires, or the status is one of 429, 500, 502,
503, 504, 509 (the retryErrorCodes table), or the status is 401 with an
expired-token indication in the Www-Authenticate header; and a cancelled
or expired context is never retryable, whatever the response. -/
theorem c2_shouldRetry_classification :
    retryErrorCodes = [429, 500, 502, 503, 504, 509] ∧
    (∀ (resp : Option HResponse) (g : Bool), shouldRetry true resp g = false) ∧
    (∀ (resp : Option HResponse) (g : Bool),
      shouldRetry false resp g = true ↔
        (g = true ∨
          (∃ r, resp = some r ∧ r.statusCode ∈ retryErrorCodes) ∨
          (∃ r, resp = some r ∧ r.statusCode = 401 ∧
            strContains r.wwwAuthenticate ("expired_token") = true))) := by
  refine ⟨rfl, fun resp g => rfl, fun resp g => ?_⟩
  cases resp with
  | none =>
    simp [shouldRetry, ShouldRetryHTTP]
  | some r =>
    simp [shouldRetry, ShouldRetryHTTP, List.contains_iff_exists_mem_beq,
      Bool.or_eq_true, Bool.and_eq_true, beq_iff_eq]
    tauto

/-- C3: the loop body of listAll is meant to drop entries of unrecognized
type, but the branch that would do so is unreachable dead code, so an
entry whose type tag is none of the recognized constants is fed to the
callback as a file: with both filter flags clear, the listing of a page
holding only the banana-typed entry feeds exactly that entry. -/
theorem c3_unknown_type_passed_through :
    listAll srvC3 ("0") false false (fun s => s) (fun _ => false) 1 =
      ⟨[⟨"0", none⟩], [itemC3], ListOutcome.ok false⟩ ∧
    recognizedTypes.contains itemC3.type = false := by
  exact ⟨rfl, by decide⟩

/-- C5: Update rejects a negative declared size before any other step:
the result is the unknown-size precondition error, and the network call
count of the run is zero, whatever the directory resolution and the
upload would have done (in particular the stream is never read to
discover a size). -/
theorem c5_update_rejects_unknown_size :
    ∀ (size : Int) (findPath : Except GoErr (String × String) × Nat)
      (doUpload : Except GoErr Unit × Nat),
      size < 0 →
      update size findPath doUpload = (Except.error GoErr.unknownSize, 0) := by
  intro size fp up h
  simp [update, h]

/-- Witness for C5 at declared size -1. -/
theorem c5_update_witness :
    (-1 : Int) < 0 ∧
      update (-1) (Except.ok ("a", "0"), 2) (Except.ok (), 1) =
        (Except.error GoErr.unknownSize, 0) :=
  ⟨by decide, c5_update_rejects_unknown_size (-1) (Except.ok ("a", "0"), 2)
    (Except.ok (), 1) (by decide)⟩

/-- C1: over every pagination chain the server presents, the full listing
(no filter flags, callback never stopping early, as List uses it) returns
every entry of every page exactly once, renamed, in server order; issues
exactly the chain requests, one per page, the first without a page
parameter and each later one at the page number announced by its
predecessor; and stops exactly at the page that carries no continuation
token, which is the last element of every chain. -/
theorem c1_listAll_pagination :
    ∀ (srv : ListSrv) (dirID : String) (enc : String → String)
      (ps : List FileEntriesPage) (fuel : Nat),
      Serves srv dirID none ps → ps.length ≤ fuel →
      listAll srv dirID false false enc (fun _ => false) fuel =
        ⟨chainReqs dirID none ps,
          (ps.map (fun p => p.data.map (encItem enc))).flatten,
          ListOutcome.ok false⟩ ∧
      (chainReqs dirID none ps).length = ps.length := by
  intro srv dirID enc ps fuel hs hf
  constructor
  · have hfil : ∀ l : List Item, l.filter (listAllKeep false false) = l :=
      fun l => List.filter_eq_self.mpr (fun a _ => listAllKeep_false_false a)
    have h := listAllFrom_chain srv dirID false false enc (fun _ => false) hs
      (fun p _ i _ _ => rfl) fuel hf
    simpa [listAll, hfil] using h
  · exact chainReqs_length srv dirID hs

/-- Witness for C1 on a concrete two-page chain. -/
theorem c1_listAll_witness :
    listAll srvC1 ("0") false false (fun s => s) (fun _ => false) 2 =
      ⟨chainReqs ("0") none [pageC1a, pageC1b],
        ([pageC1a, pageC1b].map (fun p => p.data.map (encItem (fun s => s)))).flatten,
        ListOutcome.ok false⟩ ∧
      (chainReqs ("0") none [pageC1a, pageC1b]).length = 2 :=
  c1_listAll_pagination srvC1 ("0") (fun s => s) [pageC1a, pageC1b] 2
    (Serves.step rfl rfl (Serves.last rfl rfl)) (by decide)

/-- C7 counterexample: when the delete call succeeds at the transport
level but the response status is not success, purgeCheck returns the
failure without running the cache eviction: the flush flag of the run is
false, contrary to the claim that the path entry is still evicted. -/
theorem c7_no_eviction_on_status_failure :
    purgeCheck ("r") ("d") (Except.ok ("5")) (fun _ => Except.ok ⟨"error"⟩) =
      (Except.error GoErr.deleteNoSuccess, false) := rfl

/-- C7 amended: purgeCheck evicts the path entry exactly on full success:
a transport-level success whose status is not success returns the
delete-no-success error with no eviction, and a success status returns
cleanly with the eviction run. -/
theorem c7_flush_only_after_success :
    (∀ (fRoot dir rootID : String) (delete : Int → Except GoErr DeleteResult)
      (res : DeleteResult),
      pathJoin fRoot dir ≠ "" →
      delete (atoi rootID) = Except.ok res →
      res.status ≠ "success" →
      purgeCheck fRoot dir (Except.ok rootID) delete =
        (Except.error GoErr.deleteNoSuccess, false)) ∧
    (∀ (fRoot dir rootID : String) (delete : Int → Except GoErr DeleteResult)
      (res : DeleteResult),
      pathJoin fRoot dir ≠ "" →
      delete (atoi rootID) = Except.ok res →
      res.status = "success" →
      purgeCheck fRoot dir (Except.ok rootID) delete = (Except.ok (), true)) := by
  constructor <;>
    · intro fRoot dir rootID delete res h1 h2 h3
      simp [purgeCheck, h1, h2, h3]

/-- Witness for C7 on a concrete status-mismatch run. -/
theorem c7_flush_witness :
    purgeCheck ("r") ("d") (Except.ok ("5")) (fun _ => Except.ok ⟨"x"⟩) =
      (Except.error GoErr.deleteNoSuccess, false) :=
  c7_flush_only_after_success.1 ("r") ("d") ("5") (fun _ => Except.ok ⟨"x"⟩) ⟨"x"⟩
    (by decide) rfl (by decide)

/-- C9 counterexample: a redirect status other than 302 is not followed:
on a 301 answer carrying a Location header, Open issues no follow-up
request and returns the body of the 301 response itself, contrary to the
claim that every HTTP redirect is followed. -/
theorem c9_301_not_followed :
    openDownload ("7") (Except.ok respC9) followC9 =
      ([⟨"/file-entries/download/7", true⟩], Except.ok ("origbody")) ∧
    respC9.status = 301 ∧ respC9.location ≠ "" :=
  ⟨rfl, rfl, by decide⟩

/-- C9 amended: only a 302 answer is followed, and then exactly once: the
Location target is fetched by one non-authenticated request and the body
of that response is returned; a 302 answer without a Location header is
an error; every other status returns the primary body unfollowed. -/
theorem c9_redirect_followed_once :
    (∀ (id : String) (follow : String → Except GoErr DlResponse) (b : String),
      id ≠ "" →
      openDownload id (Except.ok ⟨302, "", b⟩) follow =
        ([⟨"/file-entries/download/" ++ id, true⟩], Except.error GoErr.noRedirectLocation)) ∧
    (∀ (id loc b : String) (follow : String → Except GoErr DlResponse) (r2 : DlResponse),
      id ≠ "" → loc ≠ "" → follow loc = Except.ok r2 →
      openDownload id (Except.ok ⟨302, loc, b⟩) follow =
        ([⟨"/file-entries/download/" ++ id, true⟩, ⟨loc, false⟩], Except.ok r2.body)) ∧
    (∀ (id : String) (resp : DlResponse) (follow : String → Except GoErr DlResponse),
      id ≠ "" → resp.status ≠ 302 →
      openDownload id (Except.ok resp) follow =
        ([⟨"/file-entries/download/" ++ id, true⟩], Except.ok resp.body)) := by
  refine ⟨fun id follow b h => ?_, fun id loc b follow r2 h hloc hf => ?_,
    fun id resp follow h hst => ?_⟩
  · simp [openDownload, h]
  · simp [openDownload, h, hloc, hf]
  · simp [openDownload, h, hst]

/-- Witness for C9 on a concrete 302 chain. -/
theorem c9_redirect_witness :
    openDownload ("9") (Except.ok ⟨302, "http://u", "ignored"⟩)
        (fun _ => Except.ok ⟨200, "", "payload"⟩) =
      ([⟨"/file-entries/download/9", true⟩, ⟨"http://u", false⟩], Except.ok ("payload")) :=
  c9_redirect_followed_once.2.1 ("9") ("http://u") ("ignored")
    (fun _ => Except.ok ⟨200, "", "payload"⟩) ⟨200, "", "payload"⟩
    (by decide) (by decide) rfl

/-- C4: ModTime tries the fixed layout list against the updated field,
falls back to the created field when the updated field is empty or parses
under no layout, degrades to the zero time when neither parses (it can
return nothing else, so no error arises), picks the first matching layout
of the priority order, and on the concrete FileJump timestamp yields the
equivalent instant converted to the local location; empty fields in both
positions give the zero time. -/
theorem c4_modtime_decoding :
    (∀ i : Item, i.UpdatedAt ≠ "" → ∀ t, firstParse i.UpdatedAt = some t →
      Item.ModTime i = t.toLocal) ∧
    (∀ i : Item, firstParse i.UpdatedAt = none → i.CreatedAt ≠ "" →
      ∀ t, firstParse i.CreatedAt = some t → Item.ModTime i = t.toLocal) ∧
    (∀ i : Item, firstParse i.UpdatedAt = none → firstParse i.CreatedAt = none →
      Item.ModTime i = GoTime.zero) ∧
    (∀ (s : String) (t : GoTime),
      firstParse s = some t ↔
        ∃ l₁ fmt l₂, itemTimeFormats = l₁ ++ fmt :: l₂ ∧ goParse fmt s = some t ∧
          ∀ g ∈ l₁, goParse g s = none) ∧
    Item.ModTime itemC4 = ⟨1673778600, 0, true⟩ ∧
    (1673778600 : Int) = daysFromCivil 2023 1 15 * 86400 + 10 * 3600 + 30 * 60 ∧
    Item.ModTime itemC4e = GoTime.zero := by
  refine ⟨?_, ?_, ?_, ?_, by decide, by decide, by decide⟩
  · intro i h t ht
    simp [Item.ModTime, h, ht]
  · intro i hu hc t ht
    by_cases he : i.UpdatedAt = "" <;> simp [Item.ModTime, he, hu, hc, ht]
  · intro i hu hc
    by_cases he : i.UpdatedAt = "" <;> by_cases he' : i.CreatedAt = "" <;>
      simp [Item.ModTime, he, he', hu, hc]
  · intro s t
    exact findSome?_first (fun fmt => goParse fmt s) itemTimeFormats t

/-- Witness for C4 on the concrete FileJump timestamp. -/
theorem c4_modtime_witness :
    Item.ModTime itemC4 = GoTime.toLocal ⟨1673778600, 0, false⟩ :=
  c4_modtime_decoding.1 itemC4 (by decide) ⟨1673778600, 0, false⟩ (by decide)

/-- A nonzero number within the digit fuel yields a nonempty digit list. -/
theorem digitsRev_ne_nil {fuel n : Nat} (hn : n ≠ 0) (hf : 0 < fuel) :
    digitsRev fuel n ≠ [] := by
  cases fuel with
  | zero => exact absurd hf (by decide)
  | succ f => simp [digitsRev, hn]

/-- A singleton digit list within the fuel bound comes from a one-digit
number, and the digit is the number itself. -/
theorem digitsRev_singleton :
    ∀ fuel n d : Nat, n ≤ fuel → digitsRev fuel n = [d] → n < 10 ∧ d = n := by
  intro fuel
  cases fuel with
  | zero =>
    intro n d hle h
    simp [digitsRev] at h
  | succ f =>
    intro n d hle h
    by_cases hn : n = 0
    · subst hn
      simp [digitsRev] at h
    · rw [digitsRev] at h
      simp [hn] at h
      obtain ⟨hd, hrest⟩ := h
      by_cases hq : n / 10 = 0
      · have hlt : n < 10 := (Nat.div_eq_zero_iff (by decide)).mp hq
        exact ⟨hlt, by rw [← hd, Nat.mod_eq_of_lt hlt]⟩
      · cases f with
        | zero =>
          have h1 : n = 1 := by omega
          subst h1
          simp at hq
        | succ g =>
          rw [digitsRev] at hrest
          simp [hq] at hrest

/-- The decimal rendering of a nonzero natural is neither the zero digit
nor empty. -/
theorem natStr_ne {n : Nat} (hn : n ≠ 0) : natStr n ≠ "0" ∧ natStr n ≠ "" := by
  constructor
  · intro h
    have hd : ((digitsRev n n).reverse.map Nat.digitChar) = ['0'] := by
      have h2 := congrArg String.data h
      rw [natStr, if_neg hn] at h2
      exact h2
    rcases hrev : (digitsRev n n).reverse with _ | ⟨d, tail⟩
    · rw [hrev] at hd
      simp at hd
    · rw [hrev] at hd
      simp at hd
      obtain ⟨hdc, htail⟩ := hd
      have hsing : digitsRev n n = [d] := by
        have h3 := congrArg List.reverse hrev
        simpa [htail] using h3
      obtain ⟨hlt, hdn⟩ := digitsRev_singleton n n d le_rfl hsing
      rw [hdn] at hdc
      interval_cases n
      · exact hn rfl
      all_goals exact absurd hdc (by decide)
  · intro h
    have hd : ((digitsRev n n).reverse.map Nat.digitChar) = [] := by
      have h2 := congrArg String.data h
      rw [natStr, if_neg hn] at h2
      exact h2
    simp at hd
    exact digitsRev_ne_nil hn (Nat.pos_of_ne_zero hn) hd

/-- Itoa of a nonzero integer is neither the zero digit nor empty. -/
theorem itoa_ne {i : Int} (h : i ≠ 0) : itoa i ≠ "0" ∧ itoa i ≠ "" := by
  by_cases hneg : i < 0
  · rw [itoa, if_pos hneg]
    constructor
    · intro hcontra
      have h2 := congrArg String.data hcontra
      rw [String.data_append] at h2
      simp at h2
    · intro hcontra
      have h2 := congrArg String.data hcontra
      rw [String.data_append] at h2
      simp at h2
  · have ht : i.toNat ≠ 0 := by omega
    rw [itoa, if_neg hneg]
    exact natStr_ne ht

/-- C8: a valid identifier (a nonzero server integer) renders to a string
that is never the zero digit and never empty, under both revisions of
GetID; the second revision renders the invalid identifier 0 as the empty
string, the not-yet-resolved marker; setMetaData installs exactly GetID
of the listed item on the file handle; and Open with an empty identifier
fails at once with the no-identifier error and an empty request trace. -/
theorem c8_identifier_invariant :
    (∀ i : Item, i.ID ≠ 0 → Item.GetID i ≠ "0" ∧ Item.GetID i ≠ "") ∧
    (∀ i : Item, i.ID ≠ 0 → Item.GetIDv2 i ≠ "0" ∧ Item.GetIDv2 i ≠ "") ∧
    (∀ i : Item, i.ID = 0 → Item.GetIDv2 i = "") ∧
    (∀ i : Item, i.type ≠ ItemTypeFolder →
      setMetaData i = Except.ok ⟨true, i.FileSize, Item.ModTime i, Item.GetID i⟩) ∧
    (∀ (primary : Except GoErr DlResponse) (follow : String → Except GoErr DlResponse),
      openDownload ("") primary follow = ([], Except.error GoErr.noID)) := by
  refine ⟨fun i h => itoa_ne h, ?_, ?_, ?_, fun primary follow => rfl⟩
  · intro i h
    rw [Item.GetIDv2, if_neg h]
    exact itoa_ne h
  · intro i h
    rw [Item.GetIDv2, if_pos h]
  · intro i h
    simp [setMetaData, h]

/-- Witness for C8 on a concrete valid identifier. -/
theorem c8_identifier_witness :
    Item.GetID itemC8 ≠ "0" ∧ Item.GetID itemC8 ≠ "" :=
  c8_identifier_invariant.1 itemC8 (by decide)

/-- C6 counterexample: a path whose parent resolves and whose leaf names
a folder child yields object-not-found, not the is-a-directory error: the
files-only listing of readMetaDataForPath drops the folder before the
name comparison. -/
theorem c6_folder_lookup_not_isdir :
    readMetaDataForPath srvC6 (fun s => s) (Except.ok ("sub", "0")) 1 =
      some (Except.error GoErr.objectNotFound) ∧
    GoErr.objectNotFound ≠ GoErr.isDir :=
  ⟨rfl, by decide⟩

/-- C6 amended: path lookup lists with files only, so whenever no
non-folder child carries the requested leaf name the result is
object-not-found, folder children of that name notwithstanding; the
is-a-directory error of setMetaData fires only when a folder item is
handed to it directly, which the path lookup never does. -/
theorem c6_folder_lookup_notfound :
    (∀ (srv : ListSrv) (enc : String → String) (leaf dirID : String)
      (ps : List FileEntriesPage) (fuel : Nat),
      Serves srv dirID none ps → ps.length ≤ fuel →
      (∀ p ∈ ps, ∀ i ∈ p.data, i.type ≠ ItemTypeFolder → enc i.Name ≠ leaf) →
      readMetaDataForPath srv enc (Except.ok (leaf, dirID)) fuel =
        some (Except.error GoErr.objectNotFound)) ∧
    (∀ i : Item, i.type = ItemTypeFolder → setMetaData i = Except.error GoErr.isDir) := by
  constructor
  · intro srv enc leaf dirID ps fuel hs hf hno
    have hno' : ∀ p ∈ ps, ∀ i ∈ p.data, listAllKeep false true i = true →
        ((encItem enc i).Name == leaf) = false := by
      intro p hp i hi hk
      have ht : i.type ≠ ItemTypeFolder := (listAllKeep_false_true i).mp hk
      have hne := hno p hp i hi ht
      simp [encItem]
      exact hne
    have h := listAllFrom_chain srv dirID false true enc
      (fun item => item.Name == leaf) hs hno' fuel hf
    simp [readMetaDataForPath, listAll, h]
  · intro i h
    simp [setMetaData, h]

/-- Witness for C6 on the concrete one-folder listing. -/
theorem c6_folder_lookup_witness :
    readMetaDataForPath srvC6 (fun s => s) (Except.ok ("sub", "9")) 1 =
      some (Except.error GoErr.objectNotFound) :=
  c6_folder_lookup_notfound.1 srvC6 (fun s => s) ("sub") ("9") [pageC6] 1
    (Serves.last rfl rfl) (by decide) (by decide)

/-- Renaming with the identity encoder changes nothing. -/
theorem encItem_id (i : Item) : encItem (fun s => s) i = i := rfl

/-- Case folding of two character lists that agree under the fold. -/
theorem foldmap_of_variant :
    ∀ (a b : List Char), a.length = b.length →
      (∀ p ∈ a.zip b, foldCharAscii p.1 = foldCharAscii p.2) →
      a.map foldCharAscii = b.map foldCharAscii := by
  intro a
  induction a with
  | nil =>
    intro b h _
    cases b with
    | nil => rfl
    | cons y ys => simp at h
  | cons x xs ih =>
    intro b h hp
    cases b with
    | nil => simp at h
    | cons y ys =>
      have h1 : foldCharAscii x = foldCharAscii y := hp (x, y) (by simp)
      have h2 := ih ys (by simpa using h) (fun p hp' => hp p (by simp [hp']))
      simp [h1, h2]

/-- C10: FindLeaf matches a child folder against the leaf name under the
case-insensitive EqualFold comparison (taken as a parameter ef standing
for the Unicode simple folding of the standard library): whenever the
first folder accepted by ef exists in the listing, FindLeaf reports found
and returns exactly that folder's identifier.  Strings differing only in
ASCII letter case are equal under the ASCII instance of the fold, so the
folder Test is found for the leaf test with identifier 7; file lookup, by
contrast, compares names exactly, and the file Test is not found for the
leaf test. -/
theorem c10_findleaf_case_insensitive :
    (∀ (ef : String → String → Bool) (items : List Item) (pathID leaf : String) (x : Item),
      items.find? (fun i => listAllKeep true false i && ef i.Name leaf) = some x →
      FindLeaf (fun _ _ => Except.ok ⟨items, none⟩) ef (fun s => s) pathID leaf 1 =
        some (Except.ok (Item.GetID x, true))) ∧
    (∀ s t : String, asciiCaseVariant s t = true → eqFoldAscii s t = true) ∧
    FindLeaf srvC10 eqFoldAscii (fun s => s) ("0") ("test") 1 =
      some (Except.ok ("7", true)) ∧
    readMetaDataForPath srvC10f (fun s => s) (Except.ok ("test", "0")) 1 =
      some (Except.error GoErr.objectNotFound) := by
  refine ⟨?_, ?_, rfl, rfl⟩
  · intro ef items pathID leaf x hfind
    have hp := processPage_found true false (fun s => s)
      (fun item => ef item.Name leaf) items x hfind
    rcases hpp : processPage true false (fun s => s)
        (fun item => ef item.Name leaf) items with ⟨vis, hit⟩
    rw [hpp] at hp
    simp only at hp
    simp [FindLeaf, listAll, listAllFrom, hpp, hp.1, hp.2, encItem_id]
  · intro s t h
    rw [asciiCaseVariant, Bool.and_eq_true] at h
    obtain ⟨hlen, hall⟩ := h
    have hlen' : s.data.length = t.data.length := by simpa using hlen
    rw [List.all_eq_true] at hall
    have hp : ∀ p ∈ s.data.zip t.data, foldCharAscii p.1 = foldCharAscii p.2 := by
      intro p hmem
      have hx := hall p hmem
      simp only [Bool.or_eq_true, Bool.and_eq_true, beq_iff_eq] at hx
      rcases hx with h1 | h2
      · rw [h1]
      · exact h2.1
    have := foldmap_of_variant s.data t.data hlen' hp
    simp [eqFoldAscii, this]

/-- Witness for C10 on the concrete folder listing. -/
theorem c10_findleaf_witness :
    FindLeaf (fun _ _ => Except.ok ⟨[itemC10], none⟩) eqFoldAscii (fun s => s)
        ("0") ("test") 1 =
      some (Except.ok (Item.GetID itemC10, true)) :=
  c10_findleaf_case_insensitive.1 eqFoldAscii [itemC10] ("0") ("test") itemC10 (by decide)

end Filejump
